import Mathlib

/-!
# Verification of four BLE components from apache/incubator-mynewt-core

Shallow embedding of:
* the Eddystone-URL compression parser and the console `write`, `store add`
  and `tx` commands (`apps/bletiny/src/cmd.c`),
* the ATT client transmit path (`net/nimble/host/src/ble_att_clt.c`,
  provided as `src/unnamed/part_000`),
* the native PHY emulation state machine
  (`net/nimble/drivers/native/src/ble_phy.c`),
* the LTK-request-reply HCI helper (`apps/bletest/src/bletest_hci.c`).

C strings are embedded as `List Char`, byte buffers as `List Nat`
(each element a byte value), machine integers as `Nat`/`Int` with explicit
truncation (`% 256`, `% 65536`) where the C code narrows a value.
`assert` is modelled as a fatal outcome (an `Option`/dedicated constructor),
matching the stated intent that assertion failures abort the process.
-/

namespace Mynewt

/-! ## Error-code constants

`BLE_HS_*` values come from the host error header, `BLE_PHY_ERR_*` /
`BLE_ERR_*` from the controller headers and `EINVAL`/`ENOENT` from POSIX
errno; none of those headers are among the four covered source files.
Modelled from the spec: only their distinctness and the zero/non-zero
split are relied on by the specified behaviours. -/

def BLE_HS_EINVAL : Nat := 3
def BLE_HS_ENOMEM : Nat := 6
def BLE_HS_ENOTCONN : Nat := 7
def BLE_HS_ENOTSUP : Nat := 8
def BLE_HS_EBADDATA : Nat := 10
def BLE_HS_ECONTROLLER : Nat := 12
def C_EINVAL : Nat := 22
def C_ENOENT : Nat := 2

/-! ## Eddystone URL compression (`cmd_parse_eddystone_url`, cmd.c:140-226)

The two literal tables.  The C code stores the loop index `i` into
`*out_scheme` / `*out_suffix`; per the spec's literal tables the protocol
codes coincide with the table indices (schemes `http://www.`=0,
`https://www.`=1, `http://`=2, `https://`=3; suffixes `.com/`=0 ...
`.gov`=13), so the parse result below carries the index. -/

def eddystone_schemes : List (List Char) :=
  ["http://www.".toList, "https://www.".toList, "http://".toList, "https://".toList]

def eddystone_suffixes : List (List Char) :=
  [".com/".toList, ".org/".toList, ".edu/".toList, ".net/".toList,
   ".info/".toList, ".biz/".toList, ".gov/".toList,
   ".com".toList, ".org".toList, ".edu".toList, ".net".toList,
   ".info".toList, ".biz".toList, ".gov".toList]

/-- Modelled from the spec: the "no suffix" sentinel code
(`BLE_EDDYSTONE_URL_SUFFIX_NONE`, from a header outside the covered
sources); any value distinct from the 14 real suffix codes works. -/
def BLE_EDDYSTONE_URL_SUFFIX_NONE : Nat := 255

/-- First loop of `cmd_parse_eddystone_url`: scan the scheme table in order,
returning the first index whose entry is a prefix of the URL, together with
that entry's length.  The C condition
`full_url_len >= prefix_len && memcmp(full_url, prefix, prefix_len) == 0`
is exactly `isPrefixOf`. -/
def schemeScan : List (List Char) → List Char → Option (Nat × Nat)
  | [], _ => none
  | p :: rest, url =>
    if p.isPrefixOf url then
      some (0, p.length)
    else
      (schemeScan rest url).map fun r => (r.1 + 1, r.2)

/-- Second loop of `cmd_parse_eddystone_url`: scan the suffix table in order.
The C condition is `suffix_idx >= prefix_len && memcmp(full_url +
suffix_idx, suffix, suffix_len) == 0` with
`suffix_idx = full_url_len - suffix_len` computed in `int` arithmetic
(hence the `Int` comparison below, which is false when the table entry is
longer than the URL). -/
def suffixScan (pfxLen : Nat) : List (List Char) → List Char → Option (Nat × Nat)
  | [], _ => none
  | s :: rest, url =>
    if (url.length : Int) - (s.length : Int) ≥ (pfxLen : Int) ∧ s.isSuffixOf url then
      some (0, s.length)
    else
      (suffixScan pfxLen rest url).map fun r => (r.1 + 1, r.2)

/-- `cmd_parse_eddystone_url` (cmd.c:140-226).  Returns `none` on
`BLE_HS_EINVAL` (no scheme matched); otherwise the scheme index, the body
copied out by the final `memcpy`, and the suffix index (or the no-suffix
sentinel).  `*out_body_len` is a `uint8_t`, so the computed body length is
narrowed `% 256` before the copy. -/
def cmd_parse_eddystone_url (full_url : List Char) : Option (Nat × List Char × Nat) :=
  match schemeScan eddystone_schemes full_url with
  | none => none
  | some (si, pfxLen) =>
    match suffixScan pfxLen eddystone_suffixes full_url with
    | some (fi, sfxLen) =>
      let body_len := (full_url.length - pfxLen - sfxLen) % 256
      some (si, (full_url.drop pfxLen).take body_len, fi)
    | none =>
      let body_len := (full_url.length - pfxLen) % 256
      some (si, (full_url.drop pfxLen).take body_len, BLE_EDDYSTONE_URL_SUFFIX_NONE)

/-! ### Auxiliary list facts used by the Eddystone round-trip argument -/

lemma mem_of_getElemOpt {l : List (List Char)} {n : Nat} {a : List Char}
    (h : l[n]? = some a) : a ∈ l := by
  obtain ⟨hlt, he⟩ := List.getElem?_eq_some_iff.mp h
  exact he ▸ List.getElem_mem hlt

/-- If two lists are both suffixes of `u`, the shorter is a suffix of the
longer. -/
lemma suffixOf_trans_le {a b u : List Char} (h1 : a <:+ u) (h2 : b <:+ u)
    (hl : a.length ≤ b.length) : a <:+ b := by
  have ha := List.suffix_iff_eq_drop.mp h1
  have hb := List.suffix_iff_eq_drop.mp h2
  have hbu : b.length ≤ u.length := h2.length_le
  have hdlen : (List.drop (u.length - b.length) u).length = b.length := by
    rw [← hb]
  have key : b.drop (b.length - a.length) = a := by
    rw [hb, hdlen, List.drop_drop]
    rw [show u.length - b.length + (b.length - a.length) = u.length - a.length from by omega]
    exact ha.symm
  exact key ▸ List.drop_suffix _ _

/-- No entry of the suffix table is a proper suffix of another entry
(checked exhaustively over the 14×14 pairs). -/
lemma eddystone_suffixes_cross {e s : List Char} (he : e ∈ eddystone_suffixes)
    (hs : s ∈ eddystone_suffixes) (hne : e ≠ s) : ¬ e <:+ s := by
  have hall : (eddystone_suffixes.all fun x =>
      eddystone_suffixes.all fun y => (x == y) || !(x.isSuffixOf y)) = true := by decide
  intro hsuf
  have h1 := List.all_eq_true.mp hall e he
  have h2 := List.all_eq_true.mp h1 s hs
  rw [beq_eq_false_iff_ne.mpr hne, Bool.false_or, Bool.not_eq_true'] at h2
  exact absurd (List.isSuffixOf_iff_suffix.mpr hsuf) (by simp [h2])

/-- In any URL that ends with one table entry, no *other* table entry
matches at the end. -/
lemma eddystone_suffixes_first_only {e s u : List Char} (he : e ∈ eddystone_suffixes)
    (hs : s ∈ eddystone_suffixes) (hne : e ≠ s) (hsu : s <:+ u) : ¬ e <:+ u := by
  intro heu
  rcases le_total e.length s.length with h | h
  · exact eddystone_suffixes_cross he hs hne (suffixOf_trans_le heu hsu h)
  · exact eddystone_suffixes_cross hs he (Ne.symm hne) (suffixOf_trans_le hsu heu h)

/-- The scheme loop returns the first matching index. -/
lemma schemeScan_eq_of {url : List Char} :
    ∀ {tbl : List (List Char)} (si : Nat) (p : List Char), tbl[si]? = some p → p <+: url →
    (∀ j q, j < si → tbl[j]? = some q → ¬ q <+: url) →
    schemeScan tbl url = some (si, p.length) := by
  intro tbl
  induction tbl with
  | nil => intro si p hp; simp at hp
  | cons hd tl ih =>
    intro si p hp hpre hmin
    cases si with
    | zero =>
      simp only [List.getElem?_cons_zero, Option.some.injEq] at hp
      subst hp
      simp only [schemeScan]
      have hpp := List.isPrefixOf_iff_prefix.mpr hpre
      rw [if_pos hpp]
    | succ si =>
      have h0 : ¬ hd <+: url := hmin 0 hd (Nat.succ_pos si) (by simp)
      have hhd : hd.isPrefixOf url = false := by
        rw [Bool.eq_false_iff]
        intro hc
        have hpp := List.isPrefixOf_iff_prefix.mp hc
        exact h0 hpp
      simp only [schemeScan, hhd, Bool.false_eq_true, if_false]
      rw [ih si p (by simpa using hp) hpre
        (fun j q hj hq => hmin (j + 1) q (by omega) (by simpa using hq))]
      rfl

/-- The suffix loop returns the first index whose entry satisfies the
range condition and matches at the end of the URL. -/
lemma suffixScan_eq_of {pfxLen : Nat} {url : List Char} :
    ∀ {tbl : List (List Char)} (fi : Nat) (s : List Char), tbl[fi]? = some s →
    ((url.length : Int) - (s.length : Int) ≥ (pfxLen : Int)) → s <:+ url →
    (∀ j q, j < fi → tbl[j]? = some q →
      ¬ ((url.length : Int) - (q.length : Int) ≥ (pfxLen : Int) ∧ q <:+ url)) →
    suffixScan pfxLen tbl url = some (fi, s.length) := by
  intro tbl
  induction tbl with
  | nil => intro fi s hs; simp at hs
  | cons hd tl ih =>
    intro fi s hs hcond hsuf hmin
    cases fi with
    | zero =>
      simp only [List.getElem?_cons_zero, Option.some.injEq] at hs
      subst hs
      simp only [suffixScan]
      rw [if_pos ⟨hcond, List.isSuffixOf_iff_suffix.mpr hsuf⟩]
    | succ fi =>
      have h0 := hmin 0 hd (Nat.succ_pos fi) (by simp)
      rw [suffixScan, if_neg]
      · rw [ih fi s (by simpa using hs) hcond hsuf
          (fun j q hj hq => hmin (j + 1) q (by omega) (by simpa using hq))]
        rfl
      · intro ⟨hc, hsf⟩
        exact h0 ⟨hc, List.isSuffixOf_iff_suffix.mp hsf⟩

lemma eddystone_schemes_len : eddystone_schemes.length = 4 := by decide

lemma eddystone_suffixes_len : eddystone_suffixes.length = 14 := by decide

lemma eddystone_suffixes_nodup : eddystone_suffixes.Nodup := by decide

/-- C1 (amended).  For every scheme-table entry `p` (index `si`), every
suffix-table entry `s` (index `fi`) and every body whose length is at most
255 and which — when the scheme is the bare `http://` / `https://` form —
does not make the remainder after the scheme start with `www.`, the parser
recovers exactly the original scheme index, body and suffix index. -/
theorem cmd_parse_eddystone_url_roundtrip (si fi : Nat) (p s body : List Char)
    (hp : eddystone_schemes[si]? = some p)
    (hs : eddystone_suffixes[fi]? = some s)
    (hblen : body.length ≤ 255)
    (hwww : 2 ≤ si → ¬ ("www.".toList <+: body ++ s)) :
    cmd_parse_eddystone_url (p ++ (body ++ s)) = some (si, body, fi) := by
  have hsi : si < 4 := by
    by_contra h
    rw [List.getElem?_eq_none (le_trans (le_of_eq eddystone_schemes_len)
      (Nat.le_of_not_lt h))] at hp
    cases hp
  have hfi : fi < 14 := by
    by_contra h
    rw [List.getElem?_eq_none (le_trans (le_of_eq eddystone_suffixes_len)
      (Nat.le_of_not_lt h))] at hs
    cases hs
  -- the true scheme entry matches at the front
  have hppre : p <+: p ++ (body ++ s) := List.prefix_append _ _
  -- no earlier scheme-table entry matches
  have hschemeMin : ∀ j q, j < si → eddystone_schemes[j]? = some q →
      ¬ q <+: p ++ (body ++ s) := by
    intro j q hj hq hcontra
    interval_cases si <;> interval_cases j <;>
      simp only [eddystone_schemes, List.getElem?_cons_zero, List.getElem?_cons_succ,
        Option.some.injEq] at hp hq <;>
      subst hp <;> subst hq <;>
      first
      | exact absurd (List.prefix_of_prefix_length_le hcontra hppre (by decide)) (by decide)
      | exact absurd (List.prefix_of_prefix_length_le hppre hcontra (by decide)) (by decide)
      | (rw [show "http://www.".toList = "http://".toList ++ "www.".toList from by decide]
           at hcontra
         exact hwww (by omega) ((List.prefix_append_right_inj _).mp hcontra))
      | (rw [show "https://www.".toList = "https://".toList ++ "www.".toList from by decide]
           at hcontra
         exact hwww (by omega) ((List.prefix_append_right_inj _).mp hcontra))
  have hscheme := schemeScan_eq_of si p hp hppre hschemeMin
  -- the true suffix entry matches at the end
  have hsufu : s <:+ p ++ (body ++ s) :=
    (List.suffix_append body s).trans (List.suffix_append p (body ++ s))
  have hulen : (p ++ (body ++ s)).length = p.length + body.length + s.length := by
    simp [Nat.add_assoc]
  have hcond : ((p ++ (body ++ s)).length : Int) - (s.length : Int) ≥ (p.length : Int) := by
    rw [hulen]; push_cast; omega
  -- no earlier suffix-table entry matches
  have hsufMin : ∀ j q, j < fi → eddystone_suffixes[j]? = some q →
      ¬ (((p ++ (body ++ s)).length : Int) - (q.length : Int) ≥ (p.length : Int) ∧
        q <:+ p ++ (body ++ s)) := by
    intro j q hj hq hcontra
    have hqmem : q ∈ eddystone_suffixes := mem_of_getElemOpt hq
    have hsmem : s ∈ eddystone_suffixes := mem_of_getElemOpt hs
    have hne : q ≠ s := by
      intro h
      subst h
      have : j = fi := List.getElem?_inj
        (by rw [eddystone_suffixes_len]; omega) eddystone_suffixes_nodup (hq.trans hs.symm)
      omega
    exact eddystone_suffixes_first_only hqmem hsmem hne hsufu hcontra.2
  have hsfx := suffixScan_eq_of fi s hs hcond hsufu hsufMin
  -- assemble
  have hblen2 : (p ++ (body ++ s)).length - p.length - s.length = body.length := by
    rw [hulen]; omega
  simp only [cmd_parse_eddystone_url, hscheme, hsfx]
  rw [hblen2, Nat.mod_eq_of_lt (by omega), List.drop_left, List.take_left]

/-- C1 (counterexample).  The URL built from scheme `http://` (code 2),
body `www.a` and suffix `.com/` (code 0) is parsed back with scheme code
0 and body `a`: the claim's round-trip fails because the first loop
matches the longer table entry `http://www.`. -/
theorem cmd_parse_eddystone_url_www_counterexample :
    cmd_parse_eddystone_url ("http://".toList ++ ("www.a".toList ++ ".com/".toList)) =
      some (0, "a".toList, 0) ∧
    some (0, "a".toList, 0) ≠
      some ((2 : Nat), "www.a".toList, (0 : Nat)) := by
  constructor
  · decide
  · decide

/-- C1 (witness).  The concrete case named by the claim:
`https://www.example.com/` parses to scheme code 1, body `example`, suffix
code 0 (`.com/`). -/
theorem cmd_parse_eddystone_url_roundtrip_witness :
    cmd_parse_eddystone_url
        ("https://www.".toList ++ ("example".toList ++ ".com/".toList)) =
      some (1, "example".toList, 0) :=
  cmd_parse_eddystone_url_roundtrip 1 0 _ _ _ (by decide) (by decide) (by decide)
    (fun h => absurd h (by decide))

/-! ## ATT client transmit path (`src/unnamed/part_000`)

The build-time options `NIMBLE_OPT(ATT_CLT_*)` gate each entry point with
an early `BLE_HS_ENOTSUP` return when the feature is compiled out; the
embedding models the default configuration in which the features are
enabled.  The `os_mbuf` byte chain is a `List Nat`; `mbuf` allocation and
the external collaborators (`ble_att_conn_chan_find`, `ble_l2cap_tx`) are
modelled by the oracle record `AttEnv`. -/

/-- Little-endian encoding of a 16-bit field, as in the wire writers. -/
def le16 (v : Nat) : List Nat := [v % 256, v / 256 % 256]

/-- Modelled from the spec: the protocol-defined ATT opcode bytes written
by the request writers (`ble_att_*_req_write`, defined outside the covered
sources). -/
def BLE_ATT_OP_FIND_INFO_REQ : Nat := 0x04
def BLE_ATT_OP_FIND_TYPE_VALUE_REQ : Nat := 0x06
def BLE_ATT_OP_READ_TYPE_REQ : Nat := 0x08
def BLE_ATT_OP_READ_GROUP_TYPE_REQ : Nat := 0x10

structure ble_att_find_info_req where
  bafq_start_handle : Nat
  bafq_end_handle : Nat

structure ble_att_find_type_value_req where
  bavq_start_handle : Nat
  bavq_end_handle : Nat
  bavq_attr_type : Nat

structure ble_att_read_type_req where
  batq_start_handle : Nat
  batq_end_handle : Nat

structure ble_att_read_group_type_req where
  bagq_start_handle : Nat
  bagq_end_handle : Nat

/-- External collaborators of one ATT transmit call.
* `chan_mtu`: result of `ble_att_conn_chan_find` for the connection —
  `some mtu` when the attribute channel exists, where `mtu` is
  `ble_l2cap_chan_mtu(chan)` (a `uint16_t`);
* `alloc_ok`: whether the packet-buffer allocations during request
  construction succeed (each failure point returns `BLE_HS_ENOMEM`);
* `l2cap_rc`: return value of the channel-layer transmit primitive. -/
structure AttEnv where
  chan_mtu : Option Nat
  alloc_ok : Bool
  l2cap_rc : Nat

/-- Outcome of an ATT transmit entry point: the status code and the buffer
handed to `ble_l2cap_tx` (if the handoff happened). -/
structure AttTxResult where
  rc : Nat
  sent : Option (List Nat)
  deriving DecidableEq

/-- `ble_att_clt_tx_req` (part_000:102-137).  Looks up the connection's
attribute channel under the host lock; on success trims the buffer to the
channel MTU (`os_mbuf_adj(txom, -extra_len)` drops the last `extra_len`
bytes) and hands it to `ble_l2cap_tx`.  `OS_MBUF_PKTLEN` is a `uint16_t`
field, hence the `% 65536`.  On lookup failure the buffer is freed and the
lookup error (`BLE_HS_ENOTCONN`, from the external
`ble_att_conn_chan_find`) is returned.  The per-opcode statistics bump
(`ble_att_inc_tx_stat`) is external state, not modelled. -/
def ble_att_clt_tx_req (env : AttEnv) (txom : List Nat) : AttTxResult :=
  match env.chan_mtu with
  | none => { rc := BLE_HS_ENOTCONN, sent := none }
  | some mtu =>
    let total_len := txom.length % 65536
    let extra_len : Int := (total_len : Int) - (mtu : Int)
    let txom2 := if extra_len > 0 then txom.take (txom.length - extra_len.toNat) else txom
    { rc := env.l2cap_rc, sent := some txom2 }

/-- Modelled from the spec: `ble_att_find_info_req_write` (outside the
covered sources) writes the opcode byte and the two little-endian handles
(`BLE_ATT_FIND_INFO_REQ_SZ` = 5). -/
def ble_att_find_info_req_encode (req : ble_att_find_info_req) : List Nat :=
  BLE_ATT_OP_FIND_INFO_REQ :: (le16 req.bafq_start_handle ++ le16 req.bafq_end_handle)

/-- Modelled from the spec: `ble_att_find_type_value_req_write` writes the
opcode, both handles and the 16-bit attribute type, all little-endian
(`BLE_ATT_FIND_TYPE_VALUE_REQ_BASE_SZ` = 7). -/
def ble_att_find_type_value_req_encode (req : ble_att_find_type_value_req) : List Nat :=
  BLE_ATT_OP_FIND_TYPE_VALUE_REQ ::
    (le16 req.bavq_start_handle ++ le16 req.bavq_end_handle ++ le16 req.bavq_attr_type)

/-- Modelled from the spec: `ble_att_read_type_req_write`
(`BLE_ATT_READ_TYPE_REQ_BASE_SZ` = 5). -/
def ble_att_read_type_req_encode (req : ble_att_read_type_req) : List Nat :=
  BLE_ATT_OP_READ_TYPE_REQ :: (le16 req.batq_start_handle ++ le16 req.batq_end_handle)

/-- Modelled from the spec: `ble_att_read_group_type_req_write`
(`BLE_ATT_READ_GROUP_TYPE_REQ_BASE_SZ` = 5). -/
def ble_att_read_group_type_req_encode (req : ble_att_read_group_type_req) : List Nat :=
  BLE_ATT_OP_READ_GROUP_TYPE_REQ ::
    (le16 req.bagq_start_handle ++ le16 req.bagq_end_handle)

/-- `ble_att_clt_tx_find_info` (part_000:280-311): handle-range check, then
build (via `ble_att_clt_build_find_info_req`) and transmit. -/
def ble_att_clt_tx_find_info (env : AttEnv) (req : ble_att_find_info_req) : AttTxResult :=
  if req.bafq_start_handle = 0 ∨ req.bafq_start_handle > req.bafq_end_handle then
    { rc := BLE_HS_EINVAL, sent := none }
  else if env.alloc_ok = false then
    { rc := BLE_HS_ENOMEM, sent := none }
  else
    ble_att_clt_tx_req env (ble_att_find_info_req_encode req)

/-- `ble_att_clt_tx_find_type_value` (part_000:435-468); the attribute
value bytes are appended after the fixed base. -/
def ble_att_clt_tx_find_type_value (env : AttEnv) (req : ble_att_find_type_value_req)
    (attribute_value : List Nat) : AttTxResult :=
  if req.bavq_start_handle = 0 ∨ req.bavq_start_handle > req.bavq_end_handle then
    { rc := BLE_HS_EINVAL, sent := none }
  else if env.alloc_ok = false then
    { rc := BLE_HS_ENOMEM, sent := none }
  else
    ble_att_clt_tx_req env (ble_att_find_type_value_req_encode req ++ attribute_value)

/-- `ble_att_clt_tx_read_type` (part_000:559-591); `uuid128` is the 2- or
16-byte encoding appended by the external `ble_uuid_append`. -/
def ble_att_clt_tx_read_type (env : AttEnv) (req : ble_att_read_type_req)
    (uuid128 : List Nat) : AttTxResult :=
  if req.batq_start_handle = 0 ∨ req.batq_start_handle > req.batq_end_handle then
    { rc := BLE_HS_EINVAL, sent := none }
  else if env.alloc_ok = false then
    { rc := BLE_HS_ENOMEM, sent := none }
  else
    ble_att_clt_tx_req env (ble_att_read_type_req_encode req ++ uuid128)

/-- `ble_att_clt_tx_read_group_type` (part_000:960-994). -/
def ble_att_clt_tx_read_group_type (env : AttEnv) (req : ble_att_read_group_type_req)
    (uuid128 : List Nat) : AttTxResult :=
  if req.bagq_start_handle = 0 ∨ req.bagq_start_handle > req.bagq_end_handle then
    { rc := BLE_HS_EINVAL, sent := none }
  else if env.alloc_ok = false then
    { rc := BLE_HS_ENOMEM, sent := none }
  else
    ble_att_clt_tx_req env (ble_att_read_group_type_req_encode req ++ uuid128)

/-- C2.  Each range-taking ATT client transmit operation called with start
handle 0, or start handle greater than end handle, returns `BLE_HS_EINVAL`
immediately and hands no bytes to `ble_l2cap_tx`. -/
theorem ble_att_clt_range_reject (env : AttEnv)
    (r1 : ble_att_find_info_req) (r2 : ble_att_find_type_value_req) (v2 : List Nat)
    (r3 : ble_att_read_type_req) (u3 : List Nat)
    (r4 : ble_att_read_group_type_req) (u4 : List Nat)
    (h1 : r1.bafq_start_handle = 0 ∨ r1.bafq_start_handle > r1.bafq_end_handle)
    (h2 : r2.bavq_start_handle = 0 ∨ r2.bavq_start_handle > r2.bavq_end_handle)
    (h3 : r3.batq_start_handle = 0 ∨ r3.batq_start_handle > r3.batq_end_handle)
    (h4 : r4.bagq_start_handle = 0 ∨ r4.bagq_start_handle > r4.bagq_end_handle) :
    ble_att_clt_tx_find_info env r1 = { rc := BLE_HS_EINVAL, sent := none } ∧
    ble_att_clt_tx_find_type_value env r2 v2 = { rc := BLE_HS_EINVAL, sent := none } ∧
    ble_att_clt_tx_read_type env r3 u3 = { rc := BLE_HS_EINVAL, sent := none } ∧
    ble_att_clt_tx_read_group_type env r4 u4 = { rc := BLE_HS_EINVAL, sent := none } := by
  refine ⟨?_, ?_, ?_, ?_⟩
  · rw [ble_att_clt_tx_find_info, if_pos h1]
  · rw [ble_att_clt_tx_find_type_value, if_pos h2]
  · rw [ble_att_clt_tx_read_type, if_pos h3]
  · rw [ble_att_clt_tx_read_group_type, if_pos h4]

/-- C2 (witness): both rejection shapes at concrete inputs (start = 0 for
find-info and read-type, start > end for the others), with a live channel
in the environment. -/
theorem ble_att_clt_range_reject_witness :
    ble_att_clt_tx_find_info ⟨some 23, true, 0⟩ ⟨0, 5⟩ =
      { rc := BLE_HS_EINVAL, sent := none } ∧
    ble_att_clt_tx_find_type_value ⟨some 23, true, 0⟩ ⟨7, 3, 0x2800⟩ [1, 2] =
      { rc := BLE_HS_EINVAL, sent := none } ∧
    ble_att_clt_tx_read_type ⟨some 23, true, 0⟩ ⟨0, 0xffff⟩ [0x03, 0x28] =
      { rc := BLE_HS_EINVAL, sent := none } ∧
    ble_att_clt_tx_read_group_type ⟨some 23, true, 0⟩ ⟨9, 8⟩ [0x00, 0x28] =
      { rc := BLE_HS_EINVAL, sent := none } :=
  ble_att_clt_range_reject ⟨some 23, true, 0⟩ ⟨0, 5⟩ ⟨7, 3, 0x2800⟩ [1, 2]
    ⟨0, 0xffff⟩ [0x03, 0x28] ⟨9, 8⟩ [0x00, 0x28]
    (by decide) (by decide) (by decide) (by decide)

/-- C3.  Whenever `ble_att_clt_tx_req` finds the attribute channel, the
buffer handed to `ble_l2cap_tx` is never longer than the channel MTU: a
buffer exceeding the MTU is truncated to exactly the MTU, and one that
fits is handed over unchanged. -/
theorem ble_att_clt_tx_req_mtu_fit (env : AttEnv) (txom : List Nat) (mtu : Nat)
    (hchan : env.chan_mtu = some mtu)
    (hlen : txom.length < 65536) (hmtu : mtu < 65536) :
    ∃ buf, (ble_att_clt_tx_req env txom).sent = some buf ∧
      buf.length ≤ mtu ∧
      (txom.length > mtu → buf.length = mtu) ∧
      (txom.length ≤ mtu → buf = txom) := by
  simp only [ble_att_clt_tx_req, hchan]
  rw [Nat.mod_eq_of_lt hlen]
  by_cases h : (txom.length : Int) - (mtu : Int) > 0
  · rw [if_pos h]
    refine ⟨_, rfl, ?_, ?_, ?_⟩
    · simp only [List.length_take]
      omega
    · intro hgt
      simp only [List.length_take]
      have : ((txom.length : Int) - (mtu : Int)).toNat = txom.length - mtu := by omega
      omega
    · intro hle
      omega
  · rw [if_neg h]
    exact ⟨txom, rfl, by omega, by omega, fun _ => rfl⟩

/-- C3 (witness): a 7-byte find-info request against a channel whose MTU
is 5 is handed to the channel layer truncated to exactly 5 bytes, and a
request that fits (MTU 23) is handed over whole. -/
theorem ble_att_clt_tx_req_mtu_fit_witness :
    ∃ buf, (ble_att_clt_tx_req ⟨some 5, true, 0⟩ [4, 1, 0, 255, 255, 9, 9]).sent = some buf ∧
      buf.length ≤ 5 ∧
      (([4, 1, 0, 255, 255, 9, 9] : List Nat).length > 5 → buf.length = 5) ∧
      (([4, 1, 0, 255, 255, 9, 9] : List Nat).length ≤ 5 →
        buf = [4, 1, 0, 255, 255, 9, 9]) :=
  ble_att_clt_tx_req_mtu_fit ⟨some 5, true, 0⟩ [4, 1, 0, 255, 255, 9, 9] 5
    rfl (by decide) (by decide)

/-! ## PHY emulation layer (`net/nimble/drivers/native/src/ble_phy.c`)

The statistics counters are `uint32_t` in C; they are embedded as
unbounded naturals, matching the spec's "monotonically increasing
counters" reading (no specified property observes values near `2^32`).
`assert` is fatal: an aborting call is a `none` / `.fatal` outcome
carrying the state at the abort point. -/

/-- Modelled from the spec: state, transition, channel-count and error
constants from `controller/ble_phy.h` and `nimble/ble.h` (headers outside
the covered sources).  The spec fixes three states, channel indices 0-39
with 37 data channels, and distinct radio-busy / buffer-exhaustion /
invalid-channel failure codes; `BLE_ERR_SUCCESS` is 0. -/
def BLE_PHY_STATE_IDLE : Nat := 0
def BLE_PHY_STATE_RX : Nat := 1
def BLE_PHY_STATE_TX : Nat := 2
def BLE_PHY_NUM_CHANS : Nat := 40
def BLE_PHY_NUM_DATA_CHANS : Nat := 37
def BLE_PHY_TRANSITION_NONE : Nat := 0
def BLE_PHY_TRANSITION_TX_RX : Nat := 2
def BLE_ERR_SUCCESS : Nat := 0
def BLE_PHY_ERR_INV_PARAM : Nat := 1
def BLE_PHY_ERR_RADIO_STATE : Nat := 2
def BLE_PHY_ERR_NO_BUFS : Nat := 3
def BLE_LL_PDU_HDR_LEN : Nat := 2
def BLE_ACCESS_ADDR_ADV : Nat := 0x8E89BED6

/-- `struct ble_phy_obj` (ble_phy.c:28-41).  `rxpdu` models whether the
receive-buffer pointer is non-NULL; the tx-end callback pair carries no
specified behaviour and is omitted. -/
structure ble_phy_obj where
  phy_txpwr_dbm : Int
  phy_chan : Nat
  phy_state : Nat
  phy_transition : Nat
  phy_rx_started : Nat
  phy_privacy : Nat
  phy_access_address : Nat
  rxpdu : Bool
  deriving DecidableEq

/-- `struct ble_phy_statistics` (ble_phy.c:44-57). -/
structure ble_phy_statistics where
  tx_good : Nat
  tx_fail : Nat
  tx_late : Nat
  tx_bytes : Nat
  rx_starts : Nat
  rx_aborts : Nat
  rx_valid : Nat
  rx_crc_err : Nat
  phy_isrs : Nat
  radio_state_errs : Nat
  no_bufs : Nat
  deriving DecidableEq

/-- The two PHY globals (`g_ble_phy_data`, `g_ble_phy_stats`). -/
structure PhyS where
  obj : ble_phy_obj
  stats : ble_phy_statistics
  deriving DecidableEq

/-- State after `ble_phy_init` (ble_phy.c:220-230): C globals are
zero-initialized, then the state is set to idle and the channel to the
out-of-range sentinel `BLE_PHY_NUM_CHANS`. -/
def ble_phy_init : PhyS :=
  { obj := { phy_txpwr_dbm := 0, phy_chan := BLE_PHY_NUM_CHANS,
             phy_state := BLE_PHY_STATE_IDLE, phy_transition := 0,
             phy_rx_started := 0, phy_privacy := 0, phy_access_address := 0,
             rxpdu := false },
    stats := ⟨0, 0, 0, 0, 0, 0, 0, 0, 0, 0, 0⟩ }

def ble_phy_state_get (s : PhyS) : Nat := s.obj.phy_state

/-- `ble_phy_disable` (ble_phy.c:466-470). -/
def ble_phy_disable (s : PhyS) : PhyS :=
  { s with obj := { s.obj with phy_state := BLE_PHY_STATE_IDLE } }

/-- `ble_phy_rxpdu_get` (ble_phy.c:104-120): reuse the held buffer if any,
otherwise ask the external pool (`alloc_ok` oracle); a failed allocation
bumps `no_bufs` and yields no buffer. -/
def ble_phy_rxpdu_get (alloc_ok : Bool) (s : PhyS) : Bool × PhyS :=
  if s.obj.rxpdu then (true, s)
  else if alloc_ok then (true, { s with obj := { s.obj with rxpdu := true } })
  else (false, { s with stats := { s.stats with no_bufs := s.stats.no_bufs + 1 } })

/-- The common radio-busy sequence `ble_phy_disable();
++g_ble_phy_stats.radio_state_errs;` shared by `ble_phy_rx` and
`ble_phy_tx`. -/
def radioStateErrPost (s : PhyS) : PhyS :=
  let s1 := ble_phy_disable s
  { s1 with stats := { s1.stats with radio_state_errs := s1.stats.radio_state_errs + 1 } }

/-- `ble_phy_rx` (ble_phy.c:232-250). -/
def ble_phy_rx (alloc_ok : Bool) (s : PhyS) : Nat × PhyS :=
  if ble_phy_state_get s ≠ BLE_PHY_STATE_IDLE then
    (BLE_PHY_ERR_RADIO_STATE, radioStateErrPost s)
  else
    match ble_phy_rxpdu_get alloc_ok s with
    | (false, s1) => (BLE_PHY_ERR_NO_BUFS, s1)
    | (true, s1) => (0, { s1 with obj := { s1.obj with phy_state := BLE_PHY_STATE_RX } })

/-- Result of `ble_phy_tx`: `.fatal` is the `assert(0)` abort, carrying
the state at the abort point (nothing has been mutated yet). -/
inductive PhyTxOut where
  | fatal (s : PhyS)
  | ok (rc : Nat) (s : PhyS)
  deriving DecidableEq

/-- `ble_phy_tx` (ble_phy.c:327-376).  The C function takes the pdu by
pointer and asserts it non-NULL; the embedding takes the packet length
directly (`OS_MBUF_PKTHDR(txpdu)->omp_len`), so the pdu exists by
construction.  A data-channel index reaches `assert(0)` ("XXX: fix
this").  The `state = BLE_PHY_STATE_TX; if (state == BLE_PHY_STATE_TX)`
test is kept literally, including its dead failure branch. -/
def ble_phy_tx (txpdu_len : Nat) (end_trans : Nat) (alloc_ok : Bool) (s : PhyS) : PhyTxOut :=
  if ble_phy_state_get s ≠ BLE_PHY_STATE_IDLE then
    .ok BLE_PHY_ERR_RADIO_STATE (radioStateErrPost s)
  else if s.obj.phy_chan < BLE_PHY_NUM_DATA_CHANS then
    .fatal s
  else
    let s1 := if end_trans = BLE_PHY_TRANSITION_TX_RX then (ble_phy_rxpdu_get alloc_ok s).2
              else s
    let s2 := { s1 with obj := { s1.obj with phy_transition := end_trans } }
    if BLE_PHY_STATE_TX = BLE_PHY_STATE_TX then
      .ok BLE_ERR_SUCCESS
        { s2 with
          obj := { s2.obj with phy_state := BLE_PHY_STATE_TX },
          stats := { s2.stats with
                     tx_good := s2.stats.tx_good + 1,
                     tx_bytes := s2.stats.tx_bytes + txpdu_len + BLE_LL_PDU_HDR_LEN } }
    else
      .ok BLE_PHY_ERR_RADIO_STATE
        (ble_phy_disable { s2 with stats := { s2.stats with tx_fail := s2.stats.tx_fail + 1 } })

/-- `ble_phy_setchan` (ble_phy.c:438-457), with the entry
`assert(chan < BLE_PHY_NUM_CHANS)` modelled as a fatal `none`. -/
def ble_phy_setchan (chan access_addr _crcinit : Nat) (s : PhyS) : Option (Nat × PhyS) :=
  if ¬ chan < BLE_PHY_NUM_CHANS then
    none
  else if chan ≥ BLE_PHY_NUM_CHANS then
    some (BLE_PHY_ERR_INV_PARAM, s)
  else
    some (0, { s with obj := { s.obj with
      phy_access_address :=
        if chan < BLE_PHY_NUM_DATA_CHANS then access_addr else BLE_ACCESS_ADDR_ADV,
      phy_chan := chan } })

/-- `ble_phy_setchan` as compiled with assertions disabled (`NDEBUG`):
the same source with `assert` a no-op. -/
def ble_phy_setchan_ndebug (chan access_addr _crcinit : Nat) (s : PhyS) :
    Option (Nat × PhyS) :=
  if chan ≥ BLE_PHY_NUM_CHANS then
    some (BLE_PHY_ERR_INV_PARAM, s)
  else
    some (0, { s with obj := { s.obj with
      phy_access_address :=
        if chan < BLE_PHY_NUM_DATA_CHANS then access_addr else BLE_ACCESS_ADDR_ADV,
      phy_chan := chan } })

/-- One call in a `rx`/`tx`/`disable` sequence, carrying the external
allocation outcome (and for `tx` the packet length and requested end
transition). -/
inductive PhyEvt where
  | rx (alloc_ok : Bool)
  | tx (txpdu_len : Nat) (end_trans : Nat) (alloc_ok : Bool)
  | disable

/-- One step; `none` when the call trips a fatal assertion. -/
def ble_phy_step : PhyEvt → PhyS → Option PhyS
  | .rx a, s => some (ble_phy_rx a s).2
  | .tx l e a, s =>
    match ble_phy_tx l e a s with
    | .fatal _ => none
    | .ok _ s1 => some s1
  | .disable, s => some (ble_phy_disable s)

/-- Run a call sequence, stopping at a fatal assertion. -/
def ble_phy_exec : List PhyEvt → PhyS → Option PhyS
  | [], s => some s
  | e :: es, s =>
    match ble_phy_step e s with
    | none => none
    | some s1 => ble_phy_exec es s1

/-- The PHY state field is one of the three legal states. -/
def PhyStateInv (s : PhyS) : Prop :=
  s.obj.phy_state = BLE_PHY_STATE_IDLE ∨ s.obj.phy_state = BLE_PHY_STATE_RX ∨
    s.obj.phy_state = BLE_PHY_STATE_TX

lemma ble_phy_rxpdu_get_state (a : Bool) (s : PhyS) :
    ((ble_phy_rxpdu_get a s).2).obj.phy_state = s.obj.phy_state := by
  rw [ble_phy_rxpdu_get]
  split
  · rfl
  · split <;> rfl

lemma ble_phy_rx_state (a : Bool) (s : PhyS) :
    ((ble_phy_rx a s).2).obj.phy_state = BLE_PHY_STATE_IDLE ∨
    ((ble_phy_rx a s).2).obj.phy_state = BLE_PHY_STATE_RX ∨
    ((ble_phy_rx a s).2).obj.phy_state = s.obj.phy_state := by
  rw [ble_phy_rx]
  split
  · exact Or.inl rfl
  · split
    next s1 heq =>
      right; right
      have h2 := congrArg (fun p => (Prod.snd p).obj.phy_state) heq
      simpa [ble_phy_rxpdu_get_state] using h2.symm
    next s1 heq => exact Or.inr (Or.inl rfl)

lemma ble_phy_tx_ok_state (l e : Nat) (a : Bool) (s : PhyS) (rc : Nat) (s1 : PhyS)
    (h : ble_phy_tx l e a s = .ok rc s1) :
    s1.obj.phy_state = BLE_PHY_STATE_IDLE ∨ s1.obj.phy_state = BLE_PHY_STATE_TX := by
  rw [ble_phy_tx] at h
  by_cases h1 : ble_phy_state_get s ≠ BLE_PHY_STATE_IDLE
  · rw [if_pos h1] at h
    cases h
    exact Or.inl rfl
  · rw [if_neg h1] at h
    by_cases h2 : s.obj.phy_chan < BLE_PHY_NUM_DATA_CHANS
    · rw [if_pos h2] at h
      cases h
    · rw [if_neg h2, if_pos rfl] at h
      cases h
      exact Or.inr rfl

lemma ble_phy_step_inv (e : PhyEvt) {s s1 : PhyS}
    (hs : PhyStateInv s) (h : ble_phy_step e s = some s1) : PhyStateInv s1 := by
  cases e with
  | rx a =>
    simp only [ble_phy_step, Option.some.injEq] at h
    subst h
    rcases ble_phy_rx_state a s with h1 | h1 | h1
    · exact Or.inl h1
    · exact Or.inr (Or.inl h1)
    · rw [PhyStateInv, h1]; exact hs
  | tx l et a =>
    simp only [ble_phy_step] at h
    split at h
    · cases h
    next rc s2 heq =>
      cases h
      rcases ble_phy_tx_ok_state l et a s rc s1 heq with h1 | h1
      · exact Or.inl h1
      · exact Or.inr (Or.inr h1)
  | disable =>
    simp only [ble_phy_step, Option.some.injEq] at h
    subst h
    exact Or.inl rfl

lemma ble_phy_exec_inv : ∀ (evs : List PhyEvt) (s s1 : PhyS),
    PhyStateInv s → ble_phy_exec evs s = some s1 → PhyStateInv s1 := by
  intro evs
  induction evs with
  | nil =>
    intro s s1 hs h
    simp only [ble_phy_exec, Option.some.injEq] at h
    exact h ▸ hs
  | cons e es ih =>
    intro s s1 hs h
    rw [ble_phy_exec] at h
    cases hstep : ble_phy_step e s with
    | none => rw [hstep] at h; cases h
    | some s2 =>
      rw [hstep] at h
      exact ih s2 s1 (ble_phy_step_inv e hs hstep) h

/-- C6.  (1) Along every `rx`/`tx`/`disable` call sequence from the
initialized PHY, the state field stays in {Idle, RX, TX}.  (2)(3) An `rx`
or `tx` call made while not idle force-disables (post-state idle), bumps
`radio_state_errs` by exactly 1 and returns `BLE_PHY_ERR_RADIO_STATE`. -/
theorem ble_phy_state_machine :
    (∀ (evs : List PhyEvt) (s1 : PhyS), ble_phy_exec evs ble_phy_init = some s1 →
      PhyStateInv s1) ∧
    (∀ (s : PhyS) (a : Bool), s.obj.phy_state ≠ BLE_PHY_STATE_IDLE →
      ble_phy_rx a s = (BLE_PHY_ERR_RADIO_STATE, radioStateErrPost s) ∧
      (radioStateErrPost s).obj.phy_state = BLE_PHY_STATE_IDLE ∧
      (radioStateErrPost s).stats.radio_state_errs = s.stats.radio_state_errs + 1) ∧
    (∀ (s : PhyS) (l et : Nat) (a : Bool), s.obj.phy_state ≠ BLE_PHY_STATE_IDLE →
      ble_phy_tx l et a s = .ok BLE_PHY_ERR_RADIO_STATE (radioStateErrPost s)) := by
  refine ⟨fun evs s1 h => ble_phy_exec_inv evs ble_phy_init s1 (Or.inl rfl) h, ?_, ?_⟩
  · intro s a hne
    have hne2 : ble_phy_state_get s ≠ BLE_PHY_STATE_IDLE := hne
    refine ⟨?_, rfl, rfl⟩
    rw [ble_phy_rx, if_pos hne2]
  · intro s l et a hne
    have hne2 : ble_phy_state_get s ≠ BLE_PHY_STATE_IDLE := hne
    rw [ble_phy_tx, if_pos hne2]

/-- Concrete state used by the C6 witness: the PHY right after a
successful `rx` from the initial state (state = RX). -/
def phyAfterRx : PhyS := (ble_phy_rx true ble_phy_init).2

/-- C6 (witness): the invariant after the one-call trace `[rx]`, and the
radio-busy outcome of `rx`/`tx` issued in the resulting RX state. -/
theorem ble_phy_state_machine_witness :
    PhyStateInv phyAfterRx ∧
    ble_phy_rx true phyAfterRx = (BLE_PHY_ERR_RADIO_STATE, radioStateErrPost phyAfterRx) ∧
    (radioStateErrPost phyAfterRx).stats.radio_state_errs =
      phyAfterRx.stats.radio_state_errs + 1 ∧
    ble_phy_tx 16 BLE_PHY_TRANSITION_NONE true phyAfterRx =
      .ok BLE_PHY_ERR_RADIO_STATE (radioStateErrPost phyAfterRx) :=
  ⟨ble_phy_state_machine.1 [PhyEvt.rx true] phyAfterRx rfl,
   (ble_phy_state_machine.2.1 phyAfterRx true (by decide)).1,
   (ble_phy_state_machine.2.1 phyAfterRx true (by decide)).2.2,
   ble_phy_state_machine.2.2 phyAfterRx 16 BLE_PHY_TRANSITION_NONE true (by decide)⟩

/-- C7 (counterexample).  `ble_phy_setchan` with the channel index equal
to `BLE_PHY_NUM_CHANS` trips the entry assertion (fatal abort) instead of
returning `BLE_PHY_ERR_INV_PARAM`: the range-check return is unreachable
when assertions are compiled in. -/
theorem ble_phy_setchan_assert_counterexample :
    ble_phy_setchan BLE_PHY_NUM_CHANS 0 0 ble_phy_init = none ∧
    ble_phy_setchan BLE_PHY_NUM_CHANS 0 0 ble_phy_init ≠
      some (BLE_PHY_ERR_INV_PARAM, ble_phy_init) := by
  constructor
  · decide
  · decide

/-- C7 (amended).  With assertions compiled in, `setchan` at one past the
last valid index aborts on the entry assertion, mutating nothing; with
assertions disabled (`NDEBUG`), the same call returns
`BLE_PHY_ERR_INV_PARAM` and leaves the PHY object — in particular its
stored channel index and access address — unchanged. -/
theorem ble_phy_setchan_out_of_range (aa cr : Nat) (s : PhyS) :
    ble_phy_setchan BLE_PHY_NUM_CHANS aa cr s = none ∧
    ble_phy_setchan_ndebug BLE_PHY_NUM_CHANS aa cr s =
      some (BLE_PHY_ERR_INV_PARAM, s) := by
  constructor
  · rw [ble_phy_setchan, if_pos]
    omega
  · rw [ble_phy_setchan_ndebug, if_pos]
    omega

/-- C10.  An idle-state `ble_phy_tx` with a data channel selected reaches
`assert(0)` before any state or statistics mutation (the `.fatal` outcome
carries the pre-call state unchanged); and the success return
`BLE_ERR_SUCCESS` is only produced when an advertising channel (index
`≥ BLE_PHY_NUM_DATA_CHANS`) is selected. -/
theorem ble_phy_tx_data_chan_fatal (l et : Nat) (a : Bool) (s : PhyS)
    (hidle : s.obj.phy_state = BLE_PHY_STATE_IDLE) :
    (s.obj.phy_chan < BLE_PHY_NUM_DATA_CHANS → ble_phy_tx l et a s = .fatal s) ∧
    (∀ rc s1, ble_phy_tx l et a s = .ok rc s1 → rc = BLE_ERR_SUCCESS →
      BLE_PHY_NUM_DATA_CHANS ≤ s.obj.phy_chan) := by
  constructor
  · intro hchan
    rw [ble_phy_tx, if_neg (by simp [ble_phy_state_get, hidle]), if_pos hchan]
  · intro rc s1 h hsucc
    subst hsucc
    by_contra hlt
    rw [ble_phy_tx, if_neg (by simp [ble_phy_state_get, hidle]),
      if_pos (Nat.lt_of_not_le hlt)] at h
    cases h

/-- Concrete state for the C10 witness: initial PHY with data channel 0
selected. -/
def phyIdleDataChan : PhyS :=
  { ble_phy_init with obj := { ble_phy_init.obj with phy_chan := 0 } }

/-- C10 (witness): an idle transmit on data channel 0 aborts with the
state untouched. -/
theorem ble_phy_tx_data_chan_fatal_witness :
    ble_phy_tx 16 BLE_PHY_TRANSITION_NONE true phyIdleDataChan = .fatal phyIdleDataChan :=
  (ble_phy_tx_data_chan_fatal 16 BLE_PHY_TRANSITION_NONE true phyIdleDataChan rfl).1
    (by decide)

/-! ## Console `write` command (`cmd_write`, cmd.c:1821-1923)

The console tokens have already been split by the external argument
parser; `pairs` is the sequence of successfully tokenized
`attr=<handle> value=<bytes>` pairs (the C loop stops at the first
missing token), `no_rsp` / `is_long` are the `parse_arg_long` results
with the `ENOENT → 0` default applied, and `conn` the parsed connection
handle.  Parse-failure early returns forward the parser's own status and
are outside the selection policy modelled here. -/

def CMD_BUF_SZ : Nat := 256

/-- Which harness write entry point `cmd_write` invokes. -/
inductive WriteCall where
  | noRsp (conn attr : Nat) (val : List Nat)
  | longWrite (conn attr : Nat) (val : List Nat)
  | reliable (conn : Nat) (attrs : List (Nat × List Nat))
  | plain (conn attr : Nat) (val : List Nat)
  deriving DecidableEq

structure CmdWriteResult where
  rc : Int
  call : Option WriteCall
  deriving DecidableEq

/-- Outcome of the accumulation loop: an error exit (`goto done` with a
nonzero `rc`), the silent stop on a failed `ble_hs_mbuf_from_flat`
(`goto done` with the *current* `rc`, which is 0), or the accumulated
attribute records. -/
inductive CmdWriteAccum where
  | err (rc : Int)
  | stop
  | ok (attrs : List (Nat × List Nat))
  deriving DecidableEq

/-- The `while (1)` loop of `cmd_write` (cmd.c:1856-1888): per pair, the
value must fit the remaining space of the 256-byte `cmd_buf`
(`parse_arg_byte_stream` with bound `sizeof cmd_buf - total_attr_len`;
an oversized value is a parse error, rendered `C_EINVAL`), the record
count must stay below the array capacity
(`NIMBLE_OPT(GATT_WRITE_MAX_ATTRS)`, the `max_attrs` parameter), and the
flat-to-mbuf copy must allocate (`allocOk` oracle, indexed by record
number). -/
def cmd_write_accum (max_attrs : Nat) (allocOk : Nat → Bool) :
    List (Nat × List Nat) → List (Nat × List Nat) → Nat → Nat → CmdWriteAccum
  | [], acc, _, _ => .ok acc
  | (h, v) :: rest, acc, total, num =>
    if v.length > CMD_BUF_SZ - total then .err (C_EINVAL : Int)
    else if num ≥ max_attrs then .err (-(C_EINVAL : Int))
    else if allocOk num = false then .stop
    else cmd_write_accum max_attrs allocOk rest (acc ++ [(h, v)])
      (total + v.length) (num + 1)

/-- `cmd_write` (cmd.c:1821-1923), from the accumulation loop on: the
selection chain checks `no_rsp` first, then `long` (each demanding
exactly one record), then record count `> 1` (reliable write), `= 1`
(plain write request), else `-EINVAL`.  `harness_rc` is the status
returned by whichever external `bletiny_write*` entry point runs. -/
def cmd_write (max_attrs : Nat) (allocOk : Nat → Bool) (harness_rc : Int)
    (conn no_rsp is_long : Nat) (pairs : List (Nat × List Nat)) : CmdWriteResult :=
  match cmd_write_accum max_attrs allocOk pairs [] 0 0 with
  | .err rc => { rc := rc, call := none }
  | .stop => { rc := 0, call := none }
  | .ok attrs =>
    if no_rsp ≠ 0 then
      match attrs with
      | [(a, v)] => { rc := harness_rc, call := some (.noRsp conn a v) }
      | _ => { rc := -(C_EINVAL : Int), call := none }
    else if is_long ≠ 0 then
      match attrs with
      | [(a, v)] => { rc := harness_rc, call := some (.longWrite conn a v) }
      | _ => { rc := -(C_EINVAL : Int), call := none }
    else
      match attrs with
      | [] => { rc := -(C_EINVAL : Int), call := none }
      | [(a, v)] => { rc := harness_rc, call := some (.plain conn a v) }
      | attrs2 => { rc := harness_rc, call := some (.reliable conn attrs2) }

lemma cmd_write_accum_ok (max_attrs : Nat) (allocOk : Nat → Bool)
    (halloc : ∀ i, allocOk i = true) :
    ∀ (pairs acc : List (Nat × List Nat)) (total num : Nat),
    num + pairs.length ≤ max_attrs →
    total + (pairs.map fun pr => pr.2.length).sum ≤ CMD_BUF_SZ →
    cmd_write_accum max_attrs allocOk pairs acc total num = .ok (acc ++ pairs) := by
  intro pairs
  induction pairs with
  | nil =>
    intro acc total num _ _
    simp [cmd_write_accum]
  | cons hv rest ih =>
    intro acc total num hcap hfit
    obtain ⟨h, v⟩ := hv
    simp only [List.map_cons, List.sum_cons, List.length_cons] at hcap hfit
    rw [cmd_write_accum]
    rw [if_neg (by omega), if_neg (by omega), if_neg (by simp [halloc])]
    rw [ih (acc ++ [(h, v)]) (total + v.length) (num + 1) (by omega) (by omega)]
    simp

/-- C4.  The `write` selection policy: at least two accumulated pairs
with neither flag invoke the reliable multi-attribute write; exactly one
pair with `no_rsp` invokes the write-command path; exactly one pair with
`long` (and no `no_rsp`) invokes the long-write path; exactly one pair
with neither flag invokes the plain write request; zero pairs, or either
flag with a pair count other than one, fail with `-EINVAL` and invoke no
harness write entry point. -/
theorem cmd_write_selection (max_attrs : Nat) (allocOk : Nat → Bool) (hrc : Int)
    (conn no_rsp is_long : Nat) (pairs : List (Nat × List Nat))
    (halloc : ∀ i, allocOk i = true)
    (hcap : pairs.length ≤ max_attrs)
    (hfit : (pairs.map fun pr => pr.2.length).sum ≤ CMD_BUF_SZ) :
    (2 ≤ pairs.length → no_rsp = 0 → is_long = 0 →
      cmd_write max_attrs allocOk hrc conn no_rsp is_long pairs =
        { rc := hrc, call := some (.reliable conn pairs) }) ∧
    (∀ a v, pairs = [(a, v)] → no_rsp ≠ 0 →
      cmd_write max_attrs allocOk hrc conn no_rsp is_long pairs =
        { rc := hrc, call := some (.noRsp conn a v) }) ∧
    (∀ a v, pairs = [(a, v)] → no_rsp = 0 → is_long ≠ 0 →
      cmd_write max_attrs allocOk hrc conn no_rsp is_long pairs =
        { rc := hrc, call := some (.longWrite conn a v) }) ∧
    (∀ a v, pairs = [(a, v)] → no_rsp = 0 → is_long = 0 →
      cmd_write max_attrs allocOk hrc conn no_rsp is_long pairs =
        { rc := hrc, call := some (.plain conn a v) }) ∧
    (pairs = [] →
      cmd_write max_attrs allocOk hrc conn no_rsp is_long pairs =
        { rc := -(C_EINVAL : Int), call := none }) ∧
    ((no_rsp ≠ 0 ∨ is_long ≠ 0) → pairs.length ≠ 1 →
      cmd_write max_attrs allocOk hrc conn no_rsp is_long pairs =
        { rc := -(C_EINVAL : Int), call := none }) := by
  have haccum : cmd_write_accum max_attrs allocOk pairs [] 0 0 = .ok pairs := by
    have := cmd_write_accum_ok max_attrs allocOk halloc pairs [] 0 0
      (by omega) (by omega)
    simpa using this
  refine ⟨?_, ?_, ?_, ?_, ?_, ?_⟩
  · intro h2 hn hl
    subst hn; subst hl
    cases pairs with
    | nil => simp at h2
    | cons p1 tl =>
      cases tl with
      | nil => simp at h2
      | cons p2 rest =>
        simp only [cmd_write, haccum]
        rw [if_neg (by decide), if_neg (by decide)]
  · intro a v hp hn
    subst hp
    simp only [cmd_write, haccum]
    rw [if_pos hn]
  · intro a v hp hn hl
    subst hp; subst hn
    simp only [cmd_write, haccum]
    rw [if_neg (by decide), if_pos hl]
  · intro a v hp hn hl
    subst hp; subst hn; subst hl
    simp only [cmd_write, haccum]
    rw [if_neg (by decide), if_neg (by decide)]
  · intro hp
    subst hp
    simp only [cmd_write, haccum]
    by_cases hn : no_rsp ≠ 0
    · rw [if_pos hn]
    · rw [if_neg hn]
      by_cases hl : is_long ≠ 0
      · rw [if_pos hl]
      · rw [if_neg hl]
  · intro hflag hone
    cases pairs with
    | nil =>
      simp only [cmd_write, haccum]
      rcases hflag with hn | hl
      · rw [if_pos hn]
      · by_cases hn : no_rsp ≠ 0
        · rw [if_pos hn]
        · rw [if_neg hn, if_pos hl]
    | cons p1 tl =>
      cases tl with
      | nil => simp at hone
      | cons p2 rest =>
        simp only [cmd_write, haccum]
        rcases hflag with hn | hl
        · rw [if_pos hn]
        · by_cases hn : no_rsp ≠ 0
          · rw [if_pos hn]
          · rw [if_neg hn, if_pos hl]

/-- C4 (witness): the three positive selections and the two failure
shapes at concrete inputs (capacity 4, all allocations succeed). -/
theorem cmd_write_selection_witness :
    cmd_write 4 (fun _ => true) 0 1 0 0 [(5, [1]), (6, [2])] =
      { rc := 0, call := some (.reliable 1 [(5, [1]), (6, [2])]) } ∧
    cmd_write 4 (fun _ => true) 0 1 1 0 [(5, [1])] =
      { rc := 0, call := some (.noRsp 1 5 [1]) } ∧
    cmd_write 4 (fun _ => true) 0 1 0 1 [(5, [1])] =
      { rc := 0, call := some (.longWrite 1 5 [1]) } ∧
    cmd_write 4 (fun _ => true) 0 1 0 0 [(5, [1])] =
      { rc := 0, call := some (.plain 1 5 [1]) } ∧
    cmd_write 4 (fun _ => true) 0 1 0 0 [] =
      { rc := -(C_EINVAL : Int), call := none } ∧
    cmd_write 4 (fun _ => true) 0 1 1 0 [(5, [1]), (6, [2])] =
      { rc := -(C_EINVAL : Int), call := none } :=
  ⟨(cmd_write_selection 4 (fun _ => true) 0 1 0 0 [(5, [1]), (6, [2])]
      (fun _ => rfl) (by decide) (by decide)).1 (by decide) rfl rfl,
   (cmd_write_selection 4 (fun _ => true) 0 1 1 0 [(5, [1])]
      (fun _ => rfl) (by decide) (by decide)).2.1 5 [1] rfl (by decide),
   (cmd_write_selection 4 (fun _ => true) 0 1 0 1 [(5, [1])]
      (fun _ => rfl) (by decide) (by decide)).2.2.1 5 [1] rfl rfl (by decide),
   (cmd_write_selection 4 (fun _ => true) 0 1 0 0 [(5, [1])]
      (fun _ => rfl) (by decide) (by decide)).2.2.2.1 5 [1] rfl rfl rfl,
   (cmd_write_selection 4 (fun _ => true) 0 1 0 0 []
      (fun _ => rfl) (by decide) (by decide)).2.2.2.2.1 rfl,
   (cmd_write_selection 4 (fun _ => true) 0 1 1 0 [(5, [1]), (6, [2])]
      (fun _ => rfl) (by decide) (by decide)).2.2.2.2.2 (Or.inl (by decide)) (by decide)⟩

/-! ## Console `store add` (cmd.c:1942-2067)

`KeystoreAddArgs` carries the results the external argument parser
delivers for each named token of one `store add` line: `none` when the
token is absent (the parser's `ENOENT`) or malformed; for the three
16-byte secrets, `some bytes` is a successful
`parse_arg_byte_stream_exact_length(..., 16)`.  Parse-failure early
returns forward the parser's nonzero status; its concrete value is
rendered `C_EINVAL` (only its non-zeroness is ever observed). -/

/-- Modelled from the spec: the keystore object-type codes
(`BLE_STORE_OBJ_TYPE_*`, from the host store header) and the two console
address-type codes; only distinctness matters, except that
`BLE_ADDR_TYPE_PUBLIC` is the wire code 0. -/
def BLE_STORE_OBJ_TYPE_PEER_SEC : Nat := 1
def BLE_STORE_OBJ_TYPE_OUR_SEC : Nat := 2
def BLE_STORE_OBJ_TYPE_CCCD : Nat := 3
def BLE_ADDR_TYPE_PUBLIC : Nat := 0
def BLE_ADDR_TYPE_RANDOM : Nat := 1

/-- The security-material lookup key (`ble_store_key.sec` as the console
fills it). -/
structure ble_store_key_sec where
  peer_addr_type : Nat
  peer_addr : List Nat
  ediv : Nat
  rand_num : Nat
  deriving DecidableEq

/-- The security-material value (`ble_store_value.sec` as the console
fills it). -/
structure ble_store_value_sec where
  peer_addr_type : Nat
  peer_addr : List Nat
  ediv : Nat
  rand_num : Nat
  ltk_present : Bool
  ltk : List Nat
  irk_present : Bool
  irk : List Nat
  csrk_present : Bool
  csrk : List Nat
  deriving DecidableEq

/-- Parsed tokens of one `store add` invocation. -/
structure KeystoreAddArgs where
  type_code : Option Nat
  addr_type_code : Option Nat
  addr : Option (List Nat)
  ediv : Option Nat
  rand : Option Nat
  ltk : Option (List Nat)
  irk : Option (List Nat)
  csrk : Option (List Nat)

/-- `cmd_keystore_parse_keydata` (cmd.c:1942-1981).  Faithful to line
1957, `rc = parse_arg_kv("addr_type", cmd_keystore_addr_type, &rc)`: the
*matched code* returned by `parse_arg_kv` (or its -1 failure return) is
stored into `rc` and then tested as a status, and the parsed address
type is never written into the key — `out->sec.peer_addr_type` keeps the
0 left by the initial `memset`. -/
def cmd_keystore_parse_keydata (a : KeystoreAddArgs) :
    Except Int (Nat × ble_store_key_sec) :=
  match a.type_code with
  | none => .error (C_EINVAL : Int)
  | some obj_type =>
    if obj_type = BLE_STORE_OBJ_TYPE_PEER_SEC ∨ obj_type = BLE_STORE_OBJ_TYPE_OUR_SEC then
      let rc : Int :=
        match a.addr_type_code with
        | some v => (v : Int)
        | none => -1
      if rc ≠ 0 then .error rc
      else
        match a.addr with
        | none => .error (C_EINVAL : Int)
        | some mac =>
          match a.ediv with
          | none => .error (C_EINVAL : Int)
          | some ediv =>
            match a.rand with
            | none => .error (C_EINVAL : Int)
            | some rand =>
              .ok (obj_type,
                { peer_addr_type := 0, peer_addr := mac, ediv := ediv, rand_num := rand })
    else
      .error (C_EINVAL : Int)

/-- `cmd_keystore_parse_valuedata` (cmd.c:1983-2031).  Each supplied
secret is byte-swapped in place (`swap_in_place` = reverse) and its
presence flag set; an absent secret keeps the 16 zero bytes left by the
`memset`.  With no secret supplied the function returns -1. -/
def cmd_keystore_parse_valuedata (obj_type : Nat) (key : ble_store_key_sec)
    (a : KeystoreAddArgs) : Except Int ble_store_value_sec :=
  if obj_type = BLE_STORE_OBJ_TYPE_PEER_SEC ∨ obj_type = BLE_STORE_OBJ_TYPE_OUR_SEC then
    let v : ble_store_value_sec :=
      { peer_addr_type := key.peer_addr_type,
        peer_addr := key.peer_addr,
        ediv := key.ediv,
        rand_num := key.rand_num,
        ltk_present := a.ltk.isSome,
        ltk := match a.ltk with
               | some l => l.reverse
               | none => List.replicate 16 0,
        irk_present := a.irk.isSome,
        irk := match a.irk with
               | some l => l.reverse
               | none => List.replicate 16 0,
        csrk_present := a.csrk.isSome,
        csrk := match a.csrk with
                | some l => l.reverse
                | none => List.replicate 16 0 }
    if a.ltk.isSome ∨ a.irk.isSome ∨ a.csrk.isSome then .ok v else .error (-1)
  else
    .error (-1)

/-- Which external bonding-store write entry point ran, and with which
value. -/
inductive StoreWrite where
  | peerSec (v : ble_store_value_sec)
  | ourSec (v : ble_store_value_sec)
  deriving DecidableEq

structure KeystoreAddResult where
  rc : Int
  write : Option StoreWrite
  deriving DecidableEq

/-- `cmd_keystore_add` (cmd.c:2033-2067).  `store_rc` is the status the
external store write returns.  The `CCCD`/default switch arms are
unreachable here because `cmd_keystore_parse_keydata` only succeeds for
the two security-material types. -/
def cmd_keystore_add (store_rc : Int) (a : KeystoreAddArgs) : KeystoreAddResult :=
  match cmd_keystore_parse_keydata a with
  | .error rc => { rc := rc, write := none }
  | .ok (obj_type, key) =>
    match cmd_keystore_parse_valuedata obj_type key a with
    | .error rc => { rc := rc, write := none }
    | .ok v =>
      if obj_type = BLE_STORE_OBJ_TYPE_PEER_SEC then
        { rc := store_rc, write := some (.peerSec v) }
      else
        { rc := store_rc, write := some (.ourSec v) }

/-- C5.  Evaluating `store add` at the claim's inputs: with the full
lookup key and an LTK supplied, `addr_type=random` (code 1) makes
`cmd_keystore_parse_keydata` fail with status 1 — the matched code is
assigned to `rc` and tested as a status — so nothing is stored, while
the identical invocation with `addr_type=public` (code 0) slips through
and stores a value whose `peer_addr_type` is the memset 0, and with no
secret supplied the command fails with -1 as the claim says. -/
theorem cmd_keystore_add_addr_type_bug :
    cmd_keystore_add 0
      { type_code := some BLE_STORE_OBJ_TYPE_PEER_SEC,
        addr_type_code := some BLE_ADDR_TYPE_RANDOM,
        addr := some [1, 2, 3, 4, 5, 6], ediv := some 5, rand := some 6,
        ltk := some (List.range 16), irk := none, csrk := none } =
      { rc := 1, write := none } ∧
    cmd_keystore_add 0
      { type_code := some BLE_STORE_OBJ_TYPE_PEER_SEC,
        addr_type_code := some BLE_ADDR_TYPE_PUBLIC,
        addr := some [1, 2, 3, 4, 5, 6], ediv := some 5, rand := some 6,
        ltk := some (List.range 16), irk := none, csrk := none } =
      { rc := 0,
        write := some (.peerSec
          { peer_addr_type := 0, peer_addr := [1, 2, 3, 4, 5, 6],
            ediv := 5, rand_num := 6,
            ltk_present := true, ltk := (List.range 16).reverse,
            irk_present := false, irk := List.replicate 16 0,
            csrk_present := false, csrk := List.replicate 16 0 }) } ∧
    cmd_keystore_add 0
      { type_code := some BLE_STORE_OBJ_TYPE_PEER_SEC,
        addr_type_code := some BLE_ADDR_TYPE_PUBLIC,
        addr := some [1, 2, 3, 4, 5, 6], ediv := some 5, rand := some 6,
        ltk := none, irk := none, csrk := none } =
      { rc := -1, write := none } := by
  refine ⟨?_, ?_, ?_⟩ <;> decide

/-! ## Console `tx` command (`cmd_tx`, cmd.c:2243-2277) -/

/-- Parsed tokens of one `tx` line (`parse_arg_uint16` results; `none`
is a parse failure, whose nonzero status is rendered `C_EINVAL`). -/
structure CmdTxArgs where
  r : Option Nat
  l : Option Nat
  n : Option Nat
  h : Option Nat

structure CmdTxResult where
  rc : Int
  warned : Bool
  started : Option (Nat × Nat × Nat × Nat)
  deriving DecidableEq

/-- `cmd_tx` (cmd.c:2243-2277).  The length check only prints a warning
(`warned`); it neither returns nor skips the call to the external
`bletiny_tx_start(handle, len, rate, num)`, whose status `harness_rc`
becomes the command's result. -/
def cmd_tx (a : CmdTxArgs) (harness_rc : Int) : CmdTxResult :=
  match a.r with
  | none => { rc := (C_EINVAL : Int), warned := false, started := none }
  | some rate =>
    match a.l with
    | none => { rc := (C_EINVAL : Int), warned := false, started := none }
    | some len =>
      let warned := decide (len > 251) || decide (len < 4)
      match a.n with
      | none => { rc := (C_EINVAL : Int), warned := warned, started := none }
      | some num =>
        match a.h with
        | none => { rc := (C_EINVAL : Int), warned := warned, started := none }
        | some handle =>
          { rc := harness_rc, warned := warned,
            started := some (handle, len, rate, num) }

/-- C8.  With valid rate, count and handle arguments and a packet length
outside 4..251, `cmd_tx` warns but still invokes the burst-transmit
entry point with that length, and returns whatever it returns. -/
theorem cmd_tx_out_of_range_len (rate len num handle : Nat) (hrc : Int)
    (hbad : len > 251 ∨ len < 4) :
    cmd_tx { r := some rate, l := some len, n := some num, h := some handle } hrc =
      { rc := hrc, warned := true, started := some (handle, len, rate, num) } := by
  simp only [cmd_tx]
  rcases hbad with hgt | hlt
  · simp [hgt]
  · simp [hlt]

/-- C8 (witness): `tx r=50 l=2 n=3 h=1` (length below 4) with a harness
status of 7. -/
theorem cmd_tx_out_of_range_len_witness :
    cmd_tx { r := some 50, l := some 2, n := some 3, h := some 1 } 7 =
      { rc := 7, warned := true, started := some (1, 2, 50, 3) } :=
  cmd_tx_out_of_range_len 50 2 3 1 7 (Or.inr (by decide))

/-! ## LTK request reply (`bletest_send_ltk_req_reply`, bletest_hci.c:96-123) -/

/-- Modelled from the spec: HCI command-header and LTK-reply sizes from
`hci_common.h` (outside the covered sources): a 3-byte header (16-bit
opcode = group/field packing, then the parameter-length byte), an
18-byte parameter block (handle + 16-byte key), and a 3-byte
acknowledgement parameter block (status + echoed handle), of which the
transport strips the status before handing back the parameters. -/
def BLE_HCI_CMD_HDR_LEN : Nat := 3
def BLE_HCI_OGF_LE : Nat := 8
def BLE_HCI_OCF_LE_LT_KEY_REQ_REPLY : Nat := 0x1a
def BLE_HCI_LT_KEY_REQ_REPLY_LEN : Nat := 18
def BLE_HCI_LT_KEY_REQ_REPLY_ACK_PARAM_LEN : Nat := 3

/-- Modelled from the spec: `host_hci_write_hdr` packs the opcode group
and field into a little-endian 16-bit opcode followed by the
parameter-length byte. -/
def hciCmdHdr (ogf ocf plen : Nat) : List Nat :=
  le16 (ogf * 1024 + ocf) ++ [plen % 256]

/-- The external transport (`ble_hci_cmd_tx`): its return status and the
acknowledgement's parameter bytes (after the status byte). -/
structure HciEnv where
  tx_rc : Int
  ack_params : List Nat

structure LtkReplyResult where
  rc : Int
  sent : List Nat
  deriving DecidableEq

/-- `bletest_send_ltk_req_reply` (bletest_hci.c:96-123).  Builds the
command (handle little-endian, key byte-swapped by `swap_buf` =
reversed), sends it, then checks the acknowledgement parameter length
against `BLE_HCI_LT_KEY_REQ_REPLY_ACK_PARAM_LEN - 1` (the status byte is
consumed by the transport) and the little-endian-decoded echoed handle
against the requested one; `TOFROMLE16` is the identity on the
little-endian host this code targets. -/
def bletest_send_ltk_req_reply (handle : Nat) (ltk : List Nat) (env : HciEnv) :
    LtkReplyResult :=
  let buf := hciCmdHdr BLE_HCI_OGF_LE BLE_HCI_OCF_LE_LT_KEY_REQ_REPLY
      BLE_HCI_LT_KEY_REQ_REPLY_LEN ++ le16 handle ++ ltk.reverse
  if env.tx_rc ≠ 0 then
    { rc := env.tx_rc, sent := buf }
  else if env.ack_params.length ≠ BLE_HCI_LT_KEY_REQ_REPLY_ACK_PARAM_LEN - 1 then
    { rc := -1, sent := buf }
  else if env.ack_params.getD 0 0 + 256 * env.ack_params.getD 1 0 ≠ handle then
    { rc := -1, sent := buf }
  else
    { rc := 0, sent := buf }

/-- C9.  The command transmitted is the fixed header followed by the
little-endian handle and the byte-swapped 16-byte key, and the function
returns 0 exactly when the transport succeeded, the acknowledgement's
parameter length is the protocol-defined 2 bytes
(`BLE_HCI_LT_KEY_REQ_REPLY_ACK_PARAM_LEN` minus the status byte), and
the decoded echoed handle equals the requested one; any mismatch yields
a nonzero failure code. -/
theorem bletest_send_ltk_req_reply_spec (handle : Nat) (ltk : List Nat) (env : HciEnv)
    (_hh : handle < 65536) :
    (bletest_send_ltk_req_reply handle ltk env).sent =
      hciCmdHdr BLE_HCI_OGF_LE BLE_HCI_OCF_LE_LT_KEY_REQ_REPLY
        BLE_HCI_LT_KEY_REQ_REPLY_LEN ++ le16 handle ++ ltk.reverse ∧
    ((bletest_send_ltk_req_reply handle ltk env).rc = 0 ↔
      (env.tx_rc = 0 ∧
        env.ack_params.length = BLE_HCI_LT_KEY_REQ_REPLY_ACK_PARAM_LEN - 1 ∧
        env.ack_params.getD 0 0 + 256 * env.ack_params.getD 1 0 = handle)) := by
  constructor
  · rw [bletest_send_ltk_req_reply]
    by_cases h1 : env.tx_rc ≠ 0
    · rw [if_pos h1]
    · rw [if_neg h1]
      by_cases h2 : env.ack_params.length ≠ BLE_HCI_LT_KEY_REQ_REPLY_ACK_PARAM_LEN - 1
      · rw [if_pos h2]
      · rw [if_neg h2]
        by_cases h3 : env.ack_params.getD 0 0 + 256 * env.ack_params.getD 1 0 ≠ handle
        · rw [if_pos h3]
        · rw [if_neg h3]
  · rw [bletest_send_ltk_req_reply]
    by_cases h1 : env.tx_rc ≠ 0
    · rw [if_pos h1]
      simp only []
      constructor
      · intro h; exact absurd h h1
      · intro ⟨h, _⟩; exact absurd h h1
    · rw [if_neg h1]
      push_neg at h1
      by_cases h2 : env.ack_params.length ≠ BLE_HCI_LT_KEY_REQ_REPLY_ACK_PARAM_LEN - 1
      · rw [if_pos h2]
        simp only []
        constructor
        · intro h; exact absurd h (by decide)
        · intro ⟨_, h, _⟩; exact absurd h h2
      · rw [if_neg h2]
        push_neg at h2
        by_cases h3 : env.ack_params.getD 0 0 + 256 * env.ack_params.getD 1 0 ≠ handle
        · rw [if_pos h3]
          simp only []
          constructor
          · intro h; exact absurd h (by decide)
          · intro ⟨_, _, h⟩; exact absurd h h3
        · rw [if_neg h3]
          push_neg at h3
          exact ⟨fun _ => ⟨h1, h2, h3⟩, fun _ => rfl⟩

/-- C9 (witness): handle 0x0203, a concrete 16-byte key, and a
well-formed acknowledgement echoing the handle. -/
theorem bletest_send_ltk_req_reply_spec_witness :
    (bletest_send_ltk_req_reply 515 (List.range 16)
        { tx_rc := 0, ack_params := [3, 2] }).sent =
      hciCmdHdr BLE_HCI_OGF_LE BLE_HCI_OCF_LE_LT_KEY_REQ_REPLY
        BLE_HCI_LT_KEY_REQ_REPLY_LEN ++ le16 515 ++ (List.range 16).reverse ∧
    ((bletest_send_ltk_req_reply 515 (List.range 16)
        { tx_rc := 0, ack_params := [3, 2] }).rc = 0 ↔
      ((0 : Int) = 0 ∧
        ([3, 2] : List Nat).length = BLE_HCI_LT_KEY_REQ_REPLY_ACK_PARAM_LEN - 1 ∧
        ([3, 2] : List Nat).getD 0 0 + 256 * ([3, 2] : List Nat).getD 1 0 = 515)) :=
  bletest_send_ltk_req_reply_spec 515 (List.range 16)
    { tx_rc := 0, ack_params := [3, 2] } (by decide)

end Mynewt
